import Mathlib

/-!
Verification of the chunked storyboard generation pipeline
(`generateStoryboardInChunks`, `splitScriptIntoSections`,
`generateStoryboardChunk`, `cleanJsonOutput`, `cleanContent`).

Strings from the TypeScript source are modelled as `List Char` (JS strings
are sequences of code units; none of the verified properties depend on
surrogate-pair details).  Fallible JS code (`throw` / `try` / `catch`) is
modelled with `Except String` / `Option`; the external backend callables
(`callClaude`, `callOpenAI`, `callGemini`, `callDeepSeek`) are parameters:
each is a function from the attempt index (how many times it was already
invoked for the call site under consideration) to either a thrown error or
a returned text, abstracting arbitrary backend behaviour.
-/

namespace Storyboard

/-- `StoryboardShot` from `types.ts`.  `shotNumber` is a JS `number`;
the values that occur are integers, modelled as `Int`. -/
structure StoryboardShot where
  shotNumber : Int
  voiceCharacter : String
  emotion : String
  intensity : String
  assets : String
  dialogue : String
  fusionPrompt : String
  motionPrompt : String
deriving DecidableEq

/-! ## Output Cleaner (`cleanJsonOutput`, source lines 9-27)

Each regex replacement of the source is modelled by an executable function
on `List Char`.  `String.prototype.trim` is modelled with
`Char.isWhitespace` (the inputs of interest contain only ASCII whitespace).
-/

/-- JS `text.trim()`: drop whitespace from both ends. -/
def jsTrim (s : List Char) : List Char :=
  ((s.dropWhile Char.isWhitespace).reverse.dropWhile Char.isWhitespace).reverse

/-- JS `cleaned.replace(/^```(?:json)?\n/, '')`: the greedy optional group
tries `json` first, so the prefix ```` ```json\n ```` is removed if present,
else the prefix ```` ```\n ````, else nothing. -/
def stripFenceOpen (s : List Char) : List Char :=
  if "```json\n".data.isPrefixOf s then s.drop 8
  else if "```\n".data.isPrefixOf s then s.drop 4
  else s

/-- JS `cleaned.replace(/\n```$/, '')`: remove a trailing ````\n``` ````. -/
def stripFenceClose (s : List Char) : List Char :=
  if "\n```".data.isSuffixOf s then s.take (s.length - 4) else s

/-- Lines 11-13 of the source: the fenced-code-block wrapper is stripped
only when the trimmed text starts with three backticks. -/
def fenceStrip (s : List Char) : List Char :=
  if "```".data.isPrefixOf s then stripFenceClose (stripFenceOpen s) else s

/-- Does `pat` occur as a contiguous subsequence of the list? -/
def containsSeq (pat : List Char) : List Char → Bool
  | [] => decide (pat = [])
  | c :: rest => pat.isPrefixOf (c :: rest) || containsSeq pat rest

/-- State machine implementing the global non-greedy replacement
`cleaned.replace(/<think>[\s\S]*?<\/think>/g, '')` (source line 14).

`skip` counts characters still to be dropped silently (the remainder of a
tag just recognised), `inside` says whether we are between a matched
`<think>` and its first following `</think>`.  A `<think>` opens a match
only when a `</think>` occurs later (otherwise the regex does not match
there and the character is kept). -/
def removeThinkGo : Nat → Bool → List Char → List Char
  | Nat.succ skip, inside, _ :: rest => removeThinkGo skip inside rest
  | 0, false, c :: rest =>
      if "<think>".data.isPrefixOf (c :: rest)
          && containsSeq "</think>".data ((c :: rest).drop 7) then
        removeThinkGo 6 true rest
      else
        c :: removeThinkGo 0 false rest
  | 0, true, c :: rest =>
      if "</think>".data.isPrefixOf (c :: rest) then removeThinkGo 7 false rest
      else removeThinkGo 0 true rest
  | _, _, [] => []

/-- The reasoning-tag-block removal of source line 14. -/
def removeThinkBlocks (s : List Char) : List Char :=
  removeThinkGo 0 false s

/-- Source line 17: `replace(/^﻿/, '').replace(/^ï»¿/, '')`. -/
def bomStrip (s : List Char) : List Char :=
  let s1 := match s with
    | '\uFEFF' :: rest => rest
    | _ => s
  match s1 with
  | '\u00EF' :: '\u00BB' :: '\u00BF' :: rest => rest
  | _ => s1

/-- JS `String.prototype.indexOf` for a single character, as an option. -/
def firstIdxOf (c : Char) : List Char → Option Nat
  | [] => none
  | a :: rest => if a = c then some 0 else (firstIdxOf c rest).map (· + 1)

/-- JS `String.prototype.lastIndexOf` for a single character, as an option. -/
def lastIdxOf (c : Char) : List Char → Option Nat
  | [] => none
  | a :: rest =>
    match lastIdxOf c rest with
    | some j => some (j + 1)
    | none => if a = c then some 0 else none

/-- Source lines 20-24: slice from the first `{` to the last `}` when both
exist and the last `}` comes strictly after the first `{`. -/
def braceSlice (s : List Char) : List Char :=
  match firstIdxOf '{' s, lastIdxOf '}' s with
  | some i, some j => if i < j then (s.take (j + 1)).drop i else s
  | _, _ => s

/-- `cleanJsonOutput` (source lines 9-27), stage by stage in source order:
trim, conditional fence strip, think-block removal plus re-trim, BOM
strip, brace slice. -/
def cleanJsonOutput (text : List Char) : List Char :=
  let cleaned := jsTrim text
  let cleaned := if "```".data.isPrefixOf cleaned then
      stripFenceClose (stripFenceOpen cleaned)
    else cleaned
  let cleaned := jsTrim (removeThinkBlocks cleaned)
  let cleaned := bomStrip cleaned
  braceSlice cleaned

/-! ## A model of `JSON.parse`

The source calls the JS builtin `JSON.parse` on the cleaned backend text
(`splitScriptIntoSections` line 216, `generateStoryboardChunk` line 425).
`JSON.parse` is not repository code; it is modelled here by an executable
recursive-descent parser over the same grammar (objects, arrays, strings
with the common escapes, integer numbers, literals).  A failing parse
models a thrown `SyntaxError`. -/

inductive JsonVal where
  | str : String → JsonVal
  | num : Int → JsonVal
  | bool : Bool → JsonVal
  | null : JsonVal
  | arr : List JsonVal → JsonVal
  | obj : List (String × JsonVal) → JsonVal

/-- Skip JSON whitespace. -/
def skipWs : List Char → List Char
  | c :: rest =>
      if c = ' ' || c = '\n' || c = '\t' || c = '\r' then skipWs rest
      else c :: rest
  | [] => []

/-- Parse the body of a JSON string after the opening quote; returns the
decoded content and the remainder after the closing quote. -/
def parseStringBody : List Char → Option (List Char × List Char)
  | [] => none
  | '"' :: rest => some ([], rest)
  | '\\' :: e :: rest =>
      let decoded : Option Char :=
        if e = 'n' then some '\n'
        else if e = 't' then some '\t'
        else if e = 'r' then some '\r'
        else if e = '"' then some '"'
        else if e = '\\' then some '\\'
        else if e = '/' then some '/'
        else if e = 'b' then some (Char.ofNat 8)
        else if e = 'f' then some (Char.ofNat 12)
        else none
      match decoded with
      | some d => (parseStringBody rest).map (fun p => (d :: p.1, p.2))
      | none => none
  | c :: rest => (parseStringBody rest).map (fun p => (c :: p.1, p.2))

/-- Digit run to a natural number. -/
def digitsToNat (ds : List Char) : Nat :=
  ds.foldl (fun acc c => acc * 10 + (c.toNat - '0'.toNat)) 0

/-- Parse an integer JSON number (fractions and exponents are outside the
model; texts using them are treated as unparseable). -/
def parseNum (s : List Char) : Option (JsonVal × List Char) :=
  match s with
  | '-' :: rest =>
      let ds := rest.takeWhile Char.isDigit
      if ds = [] then none
      else some (.num (-(digitsToNat ds : Int)), rest.dropWhile Char.isDigit)
  | _ =>
      let ds := s.takeWhile Char.isDigit
      if ds = [] then none
      else some (.num (digitsToNat ds : Int), s.dropWhile Char.isDigit)

mutual

/-- Parse one JSON value (fuelled; the fuel is structural). -/
def parseVal : Nat → List Char → Option (JsonVal × List Char)
  | 0, _ => none
  | Nat.succ fuel, s =>
    let s := skipWs s
    if "true".data.isPrefixOf s then some (.bool true, s.drop 4)
    else if "false".data.isPrefixOf s then some (.bool false, s.drop 5)
    else if "null".data.isPrefixOf s then some (.null, s.drop 4)
    else
      match s with
      | '"' :: rest => (parseStringBody rest).map (fun p => (.str ⟨p.1⟩, p.2))
      | '{' :: rest =>
          (match skipWs rest with
           | '}' :: r2 => some (.obj [], r2)
           | r2 => (parseMembers fuel r2).map (fun p => (.obj p.1, p.2)))
      | '[' :: rest =>
          (match skipWs rest with
           | ']' :: r2 => some (.arr [], r2)
           | r2 => (parseItems fuel r2).map (fun p => (.arr p.1, p.2)))
      | _ => parseNum s

/-- Parse the members of a (non-empty) JSON object up to `}`. -/
def parseMembers : Nat → List Char → Option (List (String × JsonVal) × List Char)
  | 0, _ => none
  | Nat.succ fuel, s =>
    match skipWs s with
    | '"' :: rest =>
      match parseStringBody rest with
      | none => none
      | some (key, r1) =>
        match skipWs r1 with
        | ':' :: r2 =>
          match parseVal fuel r2 with
          | none => none
          | some (v, r3) =>
            match skipWs r3 with
            | ',' :: r4 => (parseMembers fuel r4).map
                (fun p => ((⟨key⟩, v) :: p.1, p.2))
            | '}' :: r4 => some ([(⟨key⟩, v)], r4)
            | _ => none
        | _ => none
    | _ => none

/-- Parse the items of a (non-empty) JSON array up to `]`. -/
def parseItems : Nat → List Char → Option (List JsonVal × List Char)
  | 0, _ => none
  | Nat.succ fuel, s =>
    match parseVal fuel s with
    | none => none
    | some (v, r1) =>
      match skipWs r1 with
      | ',' :: r2 => (parseItems fuel r2).map (fun p => (v :: p.1, p.2))
      | ']' :: r2 => some ([v], r2)
      | _ => none

end

/-- Model of `JSON.parse`: `none` stands for a thrown `SyntaxError`. -/
def jsonParse (s : List Char) : Option JsonVal :=
  match parseVal (s.length + 1) s with
  | some (v, rest) => if skipWs rest = [] then some v else none
  | none => none

/-! ## `cleanContent` (source lines 29-44) -/

/-- The string case of `cleanContent`:
`data.replace(/(\*\*|\*|【|】|\[|\])/g, '').trim()`.  Replacing `**` and
`*` alternatives by the empty string deletes every `*`, so the regex
deletes every occurrence of the five characters. -/
def cleanContentStr (s : String) : String :=
  ⟨jsTrim (s.data.filter
      (fun ch => !(ch = '*' || ch = '【' || ch = '】' || ch = '[' || ch = ']')))⟩

mutual

/-- `cleanContent` (source lines 29-44): recursively strip markdown
emphasis and bracket characters from every leaf string; object keys are
kept as-is (only the stored values are rewritten). -/
def cleanContent : JsonVal → JsonVal
  | .str s => .str (cleanContentStr s)
  | .num n => .num n
  | .bool b => .bool b
  | .null => .null
  | .arr xs => .arr (cleanContentList xs)
  | .obj fs => .obj (cleanContentFields fs)

/-- `cleanContent` mapped over array elements. -/
def cleanContentList : List JsonVal → List JsonVal
  | [] => []
  | v :: rest => cleanContent v :: cleanContentList rest

/-- `cleanContent` mapped over object field values. -/
def cleanContentFields : List (String × JsonVal) → List (String × JsonVal)
  | [] => []
  | (k, v) :: rest => (k, cleanContent v) :: cleanContentFields rest

end

/-! ## Chunk Planner (`generateStoryboardInChunks`, source lines 74-76 and 89-90)

`Math.floor((minShots + maxShots) / 2)`, `Math.ceil(targetShots / CHUNK_SIZE)`,
`Math.floor(CHUNK_SIZE * 0.8)` and `Math.floor(CHUNK_SIZE * 1.2)` are modelled
with exact natural-number arithmetic.  For every reachable `CHUNK_SIZE`
(30, 40, 50) the JS double products `CHUNK_SIZE * 0.8` and `CHUNK_SIZE * 1.2`
round to the exact integers 24/32/40 and 36/48/60, so the exact model agrees
with the floating-point code on all reachable values. -/

/-- Source line 74: `Math.floor((minShots + maxShots) / 2)`. -/
def targetShotsOf (minShots maxShots : Nat) : Nat :=
  (minShots + maxShots) / 2

/-- Source line 75: the `CHUNK_SIZE` threshold table. -/
def chunkSizeOf (targetShots : Nat) : Nat :=
  if targetShots > 100 then 30 else if targetShots > 60 then 40 else 50

/-- Source line 76: `Math.ceil(targetShots / CHUNK_SIZE)`. -/
def numChunksOf (targetShots chunkSize : Nat) : Nat :=
  (targetShots + chunkSize - 1) / chunkSize

/-- Source line 89: `Math.floor(CHUNK_SIZE * 0.8)`. -/
def chunkMinOf (chunkSize : Nat) : Nat :=
  chunkSize * 8 / 10

/-- Source line 90: `Math.floor(CHUNK_SIZE * 1.2)`. -/
def chunkMaxOf (chunkSize : Nat) : Nat :=
  chunkSize * 12 / 10

/-! ## Section Splitter (`splitScriptIntoSections`, source lines 153-230) -/

/-- The deterministic fallback split (source lines 203-211 and 220-228):
`sectionLength = Math.ceil(scriptText.length / numSections)` and section
`i` is `scriptText.substring(i * sectionLength, min((i+1) * sectionLength,
scriptText.length))`.  When `start` exceeds the length both JS `substring`
arguments clamp to the length and the slice is empty, which is exactly
what `take`/`drop` give. -/
def fallbackSplit (scriptText : List Char) (numSections : Nat) : List (List Char) :=
  let sectionLength := (scriptText.length + numSections - 1) / numSections
  (List.range numSections).map (fun i =>
    (scriptText.take (min ((i + 1) * sectionLength) scriptText.length)).drop
      (i * sectionLength))

/-- The prompt of the primary split path (source lines 169-188).  The
document is included as `scriptText.substring(0, 300000)`; `plotSummary`
stands for `analysisContext?.plotSummary || ''`. -/
def splitPrompt (scriptText : List Char) (numSections : Nat)
    (plotSummary : String) : List Char :=
  (s!"\n  # 任务：将剧本分割成 {numSections} 个连续的段落\n\n  剧本总结: {plotSummary}\n\n  请将以下剧本按照情节自然分割成 {numSections} 个段落。每个段落应该：\n  1. 包含完整的情节片段（不要在对话中间截断）\n  2. 尽量均匀分配长度\n  3. 在情节转折点或场景切换处分割\n  4. **严格按照剧本的时间顺序**，确保段落1是开头，段落{numSections}是结尾\n  5. 确保每个段落的剧情承接紧密，不遗漏任何情节\n\n  输出格式（JSON）：\n  \x7b\n    \"sections\": [\"段落1内容\", \"段落2内容\", ...]\n  \x7d\n\n  剧本内容：\n  ").data
    ++ scriptText.take 300000 ++ "\n  ".data

/-- The behaviour of the four backend callables at the splitter's single
call (source lines 195-201): a thrown error or a returned text; `none`
for the two optional callables means the parameter was not supplied. -/
structure SplitCallables where
  callClaude : Except String String
  callOpenAI : Except String String
  callGemini : Option (Except String String)
  callDeepSeek : Option (Except String String)

/-- Model-name dispatch of the splitter (source lines 164-167 and
192-212): prefix categories `claude`, `gpt-`, `deepseek`, everything else
Gemini.  `none` means no callable is available for the resolved category,
in which case the source runs the inline fallback (lines 202-211). -/
def splitDispatch (modelName : String) (bs : SplitCallables) :
    Option (Except String String) :=
  let isClaude := "claude".data.isPrefixOf modelName.data
  let isOpenAI := "gpt-".data.isPrefixOf modelName.data
  let isDeepSeek := "deepseek".data.isPrefixOf modelName.data
  if isClaude then some bs.callClaude
  else if isOpenAI then some bs.callOpenAI
  else if isDeepSeek then bs.callDeepSeek
  else bs.callGemini

/-- JS truthiness on parsed JSON values. -/
def jsTruthy : JsonVal → Bool
  | .null => false
  | .bool b => b
  | .num n => decide (n ≠ 0)
  | .str s => decide (s ≠ "")
  | .arr _ => true
  | .obj _ => true

/-- Last binding of a key (`JSON.parse` keeps the last duplicate key). -/
def lookupLast (key : String) : List (String × JsonVal) → Option JsonVal
  | [] => none
  | (k, v) :: rest =>
    match lookupLast key rest with
    | some r => some r
    | none => if k = key then some v else none

/-- A truthy `sections` value read as a string list.  JS would hand any
truthy value through unchecked; values that are not arrays of strings are
outside the model and mapped to empty content (the claims under
verification only involve absent, falsy or array values). -/
def asSections : JsonVal → List (List Char)
  | .arr xs => xs.map (fun v => match v with | .str s => s.data | _ => [])
  | _ => []

/-- `parsed.sections || []` (source line 217).  Property access on `null`
throws in JS (→ `none`, caught by the surrounding `catch`); on any other
non-object it yields `undefined`, which `|| []` turns into `[]`. -/
def sectionsAccess : JsonVal → Option (List (List Char))
  | .null => none
  | .obj fields => some
      (match lookupLast "sections" fields with
       | some sv => if jsTruthy sv then asSections sv else []
       | none => [])
  | _ => some []

/-- `splitScriptIntoSections` (source lines 153-230).  The primary path
makes one backend call (no retry); any thrown error, unparsable output or
missing callable degrades to the deterministic fallback. -/
def splitScriptIntoSections (scriptText : List Char) (numSections : Nat)
    (modelName : String) (bs : SplitCallables) : List (List Char) :=
  match splitDispatch modelName bs with
  | none => fallbackSplit scriptText numSections
  | some (.error _) => fallbackSplit scriptText numSections
  | some (.ok resultText) =>
      match jsonParse (cleanJsonOutput resultText.data) with
      | none => fallbackSplit scriptText numSections
      | some parsed =>
          match sectionsAccess parsed with
          | none => fallbackSplit scriptText numSections
          | some sections => sections

/-! ## Chunk Generator (`generateStoryboardChunk`, source lines 235-430) -/

/-- Source line 274: `previousShots.slice(-5)` — the last `min(5, length)`
elements. -/
def lastFewShotsOf (previousShots : List StoryboardShot) : List StoryboardShot :=
  previousShots.drop (previousShots.length - 5)

/-- One line of the continuity priming (source line 278):
`#${s.shotNumber}: ${s.dialogue}`. -/
def shotLine (s : StoryboardShot) : String :=
  s!"#{s.shotNumber}: {s.dialogue}"

/-- `previousContext` (source lines 272-285): empty when no shots were
emitted yet, otherwise a block quoting the running total, the last up to
five shots and the required starting shot number. -/
def previousContextOf (startShotNumber : Nat)
    (previousShots : List StoryboardShot) : String :=
  if previousShots.length > 0 then
    let count := previousShots.length
    let recent := String.intercalate "\n"
      ((lastFewShotsOf previousShots).map shotLine)
    s!"\n    ## 📌 前文分镜参考（保持连贯性）\n    前面已生成 {count} 个分镜。最近的分镜：\n    {recent}\n\n    **CRITICAL - 顺序要求**：\n    1. 你的起始镜头号是 {startShotNumber}，必须严格从这个编号开始\n    2. 当前段落必须紧接前文剧情，不能跳跃或重复\n    3. 确保剧情发展的时间顺序正确\n    "
  else ""

/-- Per-attempt behaviour of the four backend callables at one
`generateStoryboardChunk` call site: the argument is the attempt index
(0-based count of earlier invocations within the retry loop).  `none` for
the optional callables means the parameter was not supplied. -/
structure Callables where
  callClaude : Nat → Except String String
  callOpenAI : Nat → Except String String
  callGemini : Option (Nat → Except String String)
  callDeepSeek : Option (Nat → Except String String)

/-- Source line 396. -/
def MAX_RETRIES : Nat := 2

/-- One iteration of the dispatch `if`-chain (source lines 400-410).
When the resolved category has no registered callable the chain falls
through to `throw new Error('不支持的模型类型或缺少 API 调用函数')` without
invoking any callable. -/
def dispatchOnce (modelName : String) (cs : Callables) (attempt : Nat) :
    Except String String :=
  let isClaude := "claude".data.isPrefixOf modelName.data
  let isOpenAI := "gpt-".data.isPrefixOf modelName.data
  let isDeepSeek := "deepseek".data.isPrefixOf modelName.data
  if isClaude then cs.callClaude attempt
  else if isOpenAI then cs.callOpenAI attempt
  else if isDeepSeek then
    match cs.callDeepSeek with
    | some call => call attempt
    | none => .error "不支持的模型类型或缺少 API 调用函数"
  else
    match cs.callGemini with
    | some call => call attempt
    | none => .error "不支持的模型类型或缺少 API 调用函数"

/-- The retry loop (source lines 393-420): `retryCount` is the current
attempt index, `left` the number of retries still allowed
(initially `MAX_RETRIES`).  Besides the loop's result the model returns
how many times the dispatch was executed, so that "no further attempt is
made" is expressible.  The 2-second inter-attempt delay has no functional
effect and is not modelled. -/
def attemptGo (modelName : String) (cs : Callables) :
    Nat → Nat → Except String String × Nat
  | retryCount, left =>
    match dispatchOnce modelName cs retryCount, left with
    | .ok t, _ => (.ok t, retryCount + 1)
    | .error e, 0 =>
        (.error s!"分镜生成失败（已重试{MAX_RETRIES}次）: {e}", retryCount + 1)
    | .error _, Nat.succ leftMinusOne =>
        attemptGo modelName cs (retryCount + 1) leftMinusOne

/-- The whole retry loop, starting at attempt 0 with `MAX_RETRIES` retries
allowed. -/
def attemptLoop (modelName : String) (cs : Callables) :
    Except String String × Nat :=
  attemptGo modelName cs 0 MAX_RETRIES

/-- `generateStoryboardChunk` (source lines 235-430), restricted to its
observable outcome: run the retry loop, then clean and parse the returned
text (source lines 422-429).  A parse failure after a successful call is
surfaced immediately (the parse is outside the retry loop).  The second
component counts dispatch executions.  The JS `SyntaxError` message
interpolated into the thrown error is engine-specific and not modelled. -/
def generateStoryboardChunk (modelName : String) (cs : Callables) :
    Except String JsonVal × Nat :=
  match attemptLoop modelName cs with
  | (.ok resultText, calls) =>
      match jsonParse (cleanJsonOutput resultText.data) with
      | some parsed => (.ok (cleanContent parsed), calls)
      | none => (.error "分镜生成失败: JSON 解析错误", calls)
  | (.error e, calls) => (.error e, calls)

/-! ## Pipeline loop and Result Assembler
(`generateStoryboardInChunks`, source lines 88-147) -/

/-- Source lines 141-145: overwrite every shot's `shotNumber` with its
1-based position. -/
def renumberShots (allShots : List StoryboardShot) : List StoryboardShot :=
  allShots.mapIdx (fun index shot => { shot with shotNumber := (index : Int) + 1 })

/-- The chunk loop (source lines 88-139).  `chunkOutcome i allShots`
abstracts the awaited result of `generateStoryboardChunk` for chunk `i`
when `allShots` shots have been accumulated (the real call receives
`scriptSections[i]`, `allShots.length + 1` and `allShots`; on its level
the outcome is a thrown error or a list of shots).  `remaining` counts the
loop iterations still to run (`numChunks - i`).  Besides the loop result,
the model records for each issued chunk call the pair
`(startShotNumber, previousShots) = (allShots.length + 1, allShots)`
passed on source lines 108 and 111. -/
def runChunksGo (chunkOutcome : Nat → List StoryboardShot → Except String (List StoryboardShot))
    (numChunks : Nat) :
    Nat → Nat → List StoryboardShot →
      Except String (List StoryboardShot) × List (Nat × List StoryboardShot)
  | 0, _, allShots => (.ok allShots, [])
  | Nat.succ remaining, i, allShots =>
    match chunkOutcome i allShots with
    | .ok shots =>
        let r := runChunksGo chunkOutcome numChunks remaining (i + 1)
          (allShots ++ shots)
        (r.1, (allShots.length + 1, allShots) :: r.2)
    | .error msg =>
        (if allShots.length > 0 then
          .error s!"分段生成在第 {i + 1}/{numChunks} 批时失败，但已成功生成{allShots.length}个分镜。错误：{msg}"
        else
          .error s!"分段生成在第 {i + 1}/{numChunks} 批时失败: {msg}。建议：1) 缩短剧本长度 2) 减少分镜数量 3) 检查网络连接",
         [(allShots.length + 1, allShots)])

/-- `generateStoryboardInChunks` (source lines 57-148) after planning and
splitting: run the chunk loop from chunk 0 with no accumulated shots,
then renumber (source lines 141-147).  A thrown error propagates. -/
def generateStoryboardInChunks
    (chunkOutcome : Nat → List StoryboardShot → Except String (List StoryboardShot))
    (numChunks : Nat) : Except String (List StoryboardShot) :=
  (runChunksGo chunkOutcome numChunks numChunks 0 []).1.map renumberShots

/-- The trace of `(startShotNumber, previousShots)` argument pairs passed
to `generateStoryboardChunk`, in chunk order. -/
def chunkCallTrace
    (chunkOutcome : Nat → List StoryboardShot → Except String (List StoryboardShot))
    (numChunks : Nat) : List (Nat × List StoryboardShot) :=
  (runChunksGo chunkOutcome numChunks numChunks 0 []).2

/-! ## Fixtures for concrete witnesses and counterexamples -/

/-- A sample shot with a backend-chosen (possibly wrong) number. -/
def sampleShot (n : Int) (d : String) : StoryboardShot :=
  { shotNumber := n, voiceCharacter := "旁白", emotion := "平静",
    intensity := "中等", assets := "@角色1", dialogue := d,
    fusionPrompt := "画面", motionPrompt := "动作" }

/-- Chunk outputs for the witnesses: chunk 0 yields two shots (both
numbered 0 by the backend), chunk 1 yields one. -/
def shotsOfW (k : Nat) : List StoryboardShot :=
  if k = 0 then [sampleShot 0 "a", sampleShot 0 "b"] else [sampleShot 0 "c"]

/-- An all-success chunk behaviour. -/
def outcomeW (k : Nat) (_acc : List StoryboardShot) :
    Except String (List StoryboardShot) :=
  .ok (shotsOfW k)

/-- Chunk behaviour whose second chunk exhausts its retries. -/
def outcomeFailW (k : Nat) (_acc : List StoryboardShot) :
    Except String (List StoryboardShot) :=
  if k < 1 then .ok (shotsOfW k) else .error "网络超时"

/-- Chunk behaviour where chunk 0 succeeds with an empty shot list and
chunk 1 then exhausts its retries. -/
def outcomeEmptyW (k : Nat) (_acc : List StoryboardShot) :
    Except String (List StoryboardShot) :=
  if k = 0 then .ok [] else .error "boom"

/-- Forget the `shotNumber` field (used to state that renumbering changes
nothing but the numbering). -/
def forgetShotNumber (s : StoryboardShot) : StoryboardShot :=
  { s with shotNumber := 0 }

/-- The resolved backend category of `modelName` has no registered
callable: either the model name is in the `deepseek` category and
`callDeepSeek` was not supplied, or it falls through to the Gemini
default category and `callGemini` was not supplied.  (`callClaude` and
`callOpenAI` are required parameters and always present.) -/
def noRegisteredCallable (modelName : String) (cs : Callables) : Prop :=
  ("deepseek".data.isPrefixOf modelName.data = true ∧ cs.callDeepSeek = none) ∨
  ("claude".data.isPrefixOf modelName.data = false ∧
    "gpt-".data.isPrefixOf modelName.data = false ∧
    "deepseek".data.isPrefixOf modelName.data = false ∧
    cs.callGemini = none)

/-- Splitter backends whose primary call returns a parseable reply with a
single section (fewer than requested). -/
def bsShortSections : SplitCallables :=
  { callClaude := .ok "\x7b\"sections\": [\"whole\"]\x7d",
    callOpenAI := .ok "", callGemini := none, callDeepSeek := none }

/-- Chunk callables with a `deepseek` model but no `callDeepSeek`. -/
def csNoDeepSeek : Callables :=
  { callClaude := fun _ => .ok "", callOpenAI := fun _ => .ok "",
    callGemini := some (fun _ => .ok ""), callDeepSeek := none }

/-- Chunk callables failing on attempts 0 and 1 and succeeding on 2. -/
def csRetryW : Callables :=
  { callClaude := fun a =>
      if a < 2 then .error "网络错误" else .ok "\x7b\"shots\": []\x7d",
    callOpenAI := fun _ => .ok "", callGemini := none, callDeepSeek := none }

/-- Chunk callables failing on every attempt. -/
def csAllFailW : Callables :=
  { callClaude := fun _ => .error "网络错误",
    callOpenAI := fun _ => .ok "", callGemini := none, callDeepSeek := none }

/-- Chunk callables succeeding at once but with unparseable output. -/
def csBadJsonW : Callables :=
  { callClaude := fun _ => .ok "not json",
    callOpenAI := fun _ => .ok "", callGemini := none, callDeepSeek := none }

/-! ## Helper lemmas -/

/-- Concatenating the first `m` fallback slices yields the prefix of the
document up to `min (m * L) length`. -/
lemma join_fallback_slices (s : List Char) (L : Nat) (m : Nat) :
    ((List.range m).map (fun i =>
        (s.take (min ((i + 1) * L) s.length)).drop (i * L))).flatten
      = s.take (min (m * L) s.length) := by
  induction m with
  | zero => simp
  | succ m ih =>
      rw [List.range_succ, List.map_append, List.flatten_append, ih]
      simp only [List.map_cons, List.map_nil, List.flatten_cons, List.flatten_nil,
        List.append_nil]
      have hmul : (m + 1) * L = m * L + L := by ring
      rcases le_or_lt (min ((m + 1) * L) s.length) (m * L) with hle | hlt
      · have hdrop : ((s.take (min ((m + 1) * L) s.length)).drop (m * L)) = [] := by
          apply List.drop_eq_nil_of_le
          simpa using hle
        rw [hdrop, List.append_nil]
        have : min (m * L) s.length = min ((m + 1) * L) s.length := by
          omega
        rw [this]
      · have hmin : min (m * L) s.length = m * L := by omega
        rw [hmin]
        have htt : s.take (m * L) = (s.take (min ((m + 1) * L) s.length)).take (m * L) := by
          rw [List.take_take]
          congr 1
          omega
        rw [htt, List.take_append_drop]

/-- `n * ceil(len / n) ≥ len` for `n ≥ 1`. -/
lemma len_le_mul_ceilDiv (len n : Nat) (hn : 1 ≤ n) :
    len ≤ n * ((len + n - 1) / n) := by
  obtain ⟨m, rfl⟩ : ∃ m, n = m + 1 := ⟨n - 1, by omega⟩
  have h1 := Nat.div_add_mod (len + m) (m + 1)
  have h2 : (len + m) % (m + 1) < m + 1 := Nat.mod_lt _ (by omega)
  have hidx : len + (m + 1) - 1 = len + m := by omega
  rw [hidx]
  generalize hq : (len + m) / (m + 1) = q at h1 ⊢
  generalize hr : (len + m) % (m + 1) = r at h1 h2
  generalize hp : (m + 1) * q = P at h1 ⊢
  omega

/-! ## Claim theorems -/

/-- Claim C6: for positive `minCount ≤ maxCount` the derived plan
satisfies `targetCount = floor((minCount+maxCount)/2)`; the chunk-size
threshold table (`>100 → 30`, `>60 → 40`, else `50`);
`numChunks = ceil(targetCount / chunkSize) ≥ 1`;
`perChunkMin = floor(0.8 * chunkSize)` and
`perChunkMax = floor(1.2 * chunkSize)`; and in particular
`minCount = 80, maxCount = 120` gives target 100, chunk size 40,
3 chunks and per-chunk bounds `[32, 48]`. -/
theorem chunk_planner_C6 (minCount maxCount : Nat) (hmin : 1 ≤ minCount)
    (hle : minCount ≤ maxCount) :
    targetShotsOf minCount maxCount = (minCount + maxCount) / 2 ∧
    (∀ t : Nat, (100 < t → chunkSizeOf t = 30) ∧
      (60 < t → t ≤ 100 → chunkSizeOf t = 40) ∧
      (t ≤ 60 → chunkSizeOf t = 50)) ∧
    (∀ t s : Nat, numChunksOf t s = t ⌈/⌉ s) ∧
    1 ≤ numChunksOf (targetShotsOf minCount maxCount)
        (chunkSizeOf (targetShotsOf minCount maxCount)) ∧
    (∀ s : Nat, chunkMinOf s = ⌊(0.8 * (s : ℚ))⌋₊ ∧
      chunkMaxOf s = ⌊(1.2 * (s : ℚ))⌋₊) ∧
    (targetShotsOf 80 120 = 100 ∧ chunkSizeOf 100 = 40 ∧
      numChunksOf 100 40 = 3 ∧ chunkMinOf 40 = 32 ∧ chunkMaxOf 40 = 48) := by
  refine ⟨rfl, ?_, ?_, ?_, ?_, by decide⟩
  · intro t
    refine ⟨fun h => ?_, fun h1 h2 => ?_, fun h => ?_⟩ <;>
      simp only [chunkSizeOf] <;> split_ifs <;> omega
  · intro t s
    rw [Nat.ceilDiv_eq_add_pred_div]
    rfl
  · have htgt : 1 ≤ targetShotsOf minCount maxCount := by
      simp only [targetShotsOf]
      omega
    have hsz : 1 ≤ chunkSizeOf (targetShotsOf minCount maxCount) := by
      simp only [chunkSizeOf]
      split_ifs <;> omega
    simp only [numChunksOf]
    rw [Nat.le_div_iff_mul_le (by omega)]
    omega
  · intro s
    constructor
    · have h : (0.8 : ℚ) * s = ((s * 8 : ℕ) : ℚ) / ((10 : ℕ) : ℚ) := by
        push_cast
        ring_nf
      rw [h, Nat.floor_div_nat, Nat.floor_natCast]
      rfl
    · have h : (1.2 : ℚ) * s = ((s * 12 : ℕ) : ℚ) / ((10 : ℕ) : ℚ) := by
        push_cast
        ring_nf
      rw [h, Nat.floor_div_nat, Nat.floor_natCast]
      rfl

/-- Witness for C6 at `minCount = 80`, `maxCount = 120`. -/
theorem chunk_planner_C6_witness :
    (1 ≤ 80 ∧ 80 ≤ 120) ∧
    (targetShotsOf 80 120 = (80 + 120) / 2 ∧
      (∀ t : Nat, (100 < t → chunkSizeOf t = 30) ∧
        (60 < t → t ≤ 100 → chunkSizeOf t = 40) ∧
        (t ≤ 60 → chunkSizeOf t = 50)) ∧
      (∀ t s : Nat, numChunksOf t s = t ⌈/⌉ s) ∧
      1 ≤ numChunksOf (targetShotsOf 80 120) (chunkSizeOf (targetShotsOf 80 120)) ∧
      (∀ s : Nat, chunkMinOf s = ⌊(0.8 * (s : ℚ))⌋₊ ∧
        chunkMaxOf s = ⌊(1.2 * (s : ℚ))⌋₊) ∧
      (targetShotsOf 80 120 = 100 ∧ chunkSizeOf 100 = 40 ∧
        numChunksOf 100 40 = 3 ∧ chunkMinOf 40 = 32 ∧ chunkMaxOf 40 = 48)) :=
  ⟨⟨by decide, by decide⟩, chunk_planner_C6 80 120 (by decide) (by decide)⟩

/-- Claim C7: for every document and every `numChunks ≥ 1` the fallback
split produces exactly `numChunks` contiguous character-range slices whose
in-order concatenation is exactly the original document (no characters
lost, duplicated or reordered; no gaps, no overlaps). -/
theorem fallback_split_C7 (s : List Char) (n : Nat) (hn : 1 ≤ n) :
    (fallbackSplit s n).length = n ∧ (fallbackSplit s n).flatten = s := by
  constructor
  · simp [fallbackSplit]
  · simp only [fallbackSplit]
    rw [join_fallback_slices]
    have hge := len_le_mul_ceilDiv s.length n hn
    have hmin : min (n * ((s.length + n - 1) / n)) s.length = s.length := by
      omega
    rw [hmin, List.take_length]

/-- Witness for C7 on the five-character document `"hello"` split in two. -/
theorem fallback_split_C7_witness :
    1 ≤ 2 ∧ ((fallbackSplit "hello".data 2).length = 2 ∧
      (fallbackSplit "hello".data 2).flatten = "hello".data) :=
  ⟨by decide, fallback_split_C7 "hello".data 2 (by decide)⟩

/-- Claim C10: the primary-path split prompt depends on the document only
through its first 300,000 characters — replacing the document by its
300,000-character prefix produces the identical request text, so the
narrative splitter is never shown content beyond that bound. -/
theorem split_prompt_C10 (s : List Char) (n : Nat) (ctx : String) :
    splitPrompt s n ctx = splitPrompt (s.take 300000) n ctx := by
  simp [splitPrompt, List.take_take]

/-- Appending the next chunk's output extends the flattened prefix. -/
lemma flatten_range_succ_append (shotsOf : Nat → List StoryboardShot) (i : Nat) :
    ((List.range i).map shotsOf).flatten ++ shotsOf i
      = ((List.range (i + 1)).map shotsOf).flatten := by
  rw [List.range_succ, List.map_append, List.flatten_append]
  simp

/-- When every chunk up to `numChunks` succeeds, the loop returns the
concatenation of all chunk outputs and the full argument trace. -/
lemma runChunksGo_all_ok
    (outcome : Nat → List StoryboardShot → Except String (List StoryboardShot))
    (numChunks : Nat) (shotsOf : Nat → List StoryboardShot)
    (h : ∀ k acc, k < numChunks → outcome k acc = .ok (shotsOf k)) :
    ∀ remaining i, i + remaining = numChunks →
      runChunksGo outcome numChunks remaining i
          (((List.range i).map shotsOf).flatten)
        = (.ok (((List.range numChunks).map shotsOf).flatten),
           (List.range' i remaining).map (fun k =>
             ((((List.range k).map shotsOf).flatten).length + 1,
              ((List.range k).map shotsOf).flatten))) := by
  intro remaining
  induction remaining with
  | zero =>
      intro i hi
      have hieq : i = numChunks := by omega
      subst hieq
      simp [runChunksGo]
  | succ rem ih =>
      intro i hi
      have hik : i < numChunks := by omega
      simp only [runChunksGo, h i _ hik]
      rw [flatten_range_succ_append, ih (i + 1) (by omega)]
      rw [show List.range' i (rem + 1) = i :: List.range' (i + 1) rem from
        List.range'_succ i rem 1]
      simp

/-- Running from chunk `i` with the accumulated prefix, while all chunks
below `j` succeed, gives the same result as starting directly at `j`. -/
lemma runChunksGo_fst_prefix
    (outcome : Nat → List StoryboardShot → Except String (List StoryboardShot))
    (numChunks : Nat) (shotsOf : Nat → List StoryboardShot) (j : Nat)
    (h : ∀ k acc, k < j → outcome k acc = .ok (shotsOf k)) :
    ∀ dist i remaining, i + dist = j → dist ≤ remaining →
      (runChunksGo outcome numChunks remaining i
          (((List.range i).map shotsOf).flatten)).1
        = (runChunksGo outcome numChunks (remaining - dist) j
            (((List.range j).map shotsOf).flatten)).1 := by
  intro dist
  induction dist with
  | zero =>
      intro i remaining hij _
      have hieq : i = j := by omega
      subst hieq
      simp
  | succ d ih =>
      intro i remaining hij hdr
      obtain ⟨rem, rfl⟩ : ∃ rem, remaining = rem + 1 := ⟨remaining - 1, by omega⟩
      have hik : i < j := by omega
      simp only [runChunksGo, h i _ hik]
      rw [flatten_range_succ_append]
      have hrw : rem + 1 - (d + 1) = rem - d := by omega
      rw [hrw]
      exact ih (i + 1) rem (by omega) (by omega)

/-- Renumbering keeps the list length. -/
lemma renumberShots_length (L : List StoryboardShot) :
    (renumberShots L).length = L.length := by
  simp [renumberShots]

/-- The numbers after renumbering are exactly `1, 2, …, length`. -/
lemma renumberShots_numbers (L : List StoryboardShot) :
    (renumberShots L).map (fun s => s.shotNumber)
      = (List.range L.length).map (fun j : Nat => (j : Int) + 1) := by
  apply List.ext_get
  · simp [renumberShots]
  · intro n h1 h2
    have hn : n < L.length := by
      simpa [renumberShots] using h1
    have hmi : n < (renumberShots L).length := by
      simpa [renumberShots] using h1
    simp only [List.get_map]
    rw [show (renumberShots L).get ⟨n, hmi⟩
        = { L.get ⟨n, hn⟩ with shotNumber := (n : Int) + 1 } from
      List.get_mapIdx L _ n hn]
    simp

/-- Renumbering changes nothing except the `shotNumber` field: forgetting
that field recovers the original list, in order. -/
lemma renumberShots_forget (L : List StoryboardShot) :
    (renumberShots L).map forgetShotNumber = L.map forgetShotNumber := by
  apply List.ext_get
  · simp [renumberShots]
  · intro n h1 h2
    have hn : n < L.length := by
      simpa [renumberShots] using h1
    have hmi : n < (renumberShots L).length := by
      simpa [renumberShots] using h1
    simp only [List.get_map]
    rw [show (renumberShots L).get ⟨n, hmi⟩
        = { L.get ⟨n, hn⟩ with shotNumber := (n : Int) + 1 } from
      List.get_mapIdx L _ n hn]
    rfl

/-- Claim C1: when every chunk succeeds, the final pipeline result is the
concatenation of the chunks' shot lists in chunk-index order with every
`shotNumber` overwritten by its 1-based position; hence the final shot
numbers are exactly `1..K` with no gaps or duplicates and nothing but the
numbering is changed, whatever `shotNumber` values the backend produced. -/
theorem result_assembler_C1
    (outcome : Nat → List StoryboardShot → Except String (List StoryboardShot))
    (numChunks : Nat) (shotsOf : Nat → List StoryboardShot)
    (hok : ∀ k acc, k < numChunks → outcome k acc = .ok (shotsOf k)) :
    generateStoryboardInChunks outcome numChunks
      = .ok (renumberShots (((List.range numChunks).map shotsOf).flatten)) ∧
    (∀ L : List StoryboardShot,
      (renumberShots L).length = L.length ∧
      (renumberShots L).map (fun s => s.shotNumber)
        = (List.range L.length).map (fun j : Nat => (j : Int) + 1) ∧
      (renumberShots L).map forgetShotNumber = L.map forgetShotNumber) := by
  constructor
  · have h0 : ([] : List StoryboardShot)
        = ((List.range 0).map shotsOf).flatten := by simp
    rw [generateStoryboardInChunks, h0,
      runChunksGo_all_ok outcome numChunks shotsOf hok numChunks 0 (by omega)]
    rfl
  · intro L
    exact ⟨renumberShots_length L, renumberShots_numbers L, renumberShots_forget L⟩

/-- Witness for C1: two chunks, three shots, all backend numbers 0. -/
theorem result_assembler_C1_witness :
    (generateStoryboardInChunks outcomeW 2
      = .ok (renumberShots (((List.range 2).map shotsOfW).flatten)) ∧
    (∀ L : List StoryboardShot,
      (renumberShots L).length = L.length ∧
      (renumberShots L).map (fun s => s.shotNumber)
        = (List.range L.length).map (fun j : Nat => (j : Int) + 1) ∧
      (renumberShots L).map forgetShotNumber = L.map forgetShotNumber)) ∧
    generateStoryboardInChunks outcomeW 2
      = .ok [sampleShot 1 "a", sampleShot 2 "b", sampleShot 3 "c"] :=
  ⟨result_assembler_C1 outcomeW 2 shotsOfW
      (by intro k acc hk; rfl),
   by rfl⟩

/-- Claim C5 (amended): if all chunks before `j` succeed and chunk `j`
exhausts its retries, the pipeline stops with an error; when at least one
shot was already produced (`0 < N`) the error message reports the
produced count `N` and identifies the failing chunk, and when no shots
were produced yet (`N = 0`, which also covers earlier chunks that
succeeded with empty output) the distinct mitigation error is raised. -/
theorem pipeline_partial_failure_C5
    (outcome : Nat → List StoryboardShot → Except String (List StoryboardShot))
    (numChunks j N : Nat) (shotsOf : Nat → List StoryboardShot) (m : String)
    (hj : j < numChunks)
    (hok : ∀ k acc, k < j → outcome k acc = .ok (shotsOf k))
    (herr : ∀ acc, outcome j acc = .error m)
    (hN : (((List.range j).map shotsOf).flatten).length = N) :
    (0 < N → generateStoryboardInChunks outcome numChunks
        = .error s!"分段生成在第 {j + 1}/{numChunks} 批时失败，但已成功生成{N}个分镜。错误：{m}") ∧
    (N = 0 → generateStoryboardInChunks outcome numChunks
        = .error s!"分段生成在第 {j + 1}/{numChunks} 批时失败: {m}。建议：1) 缩短剧本长度 2) 减少分镜数量 3) 检查网络连接") := by
  have h0 : ([] : List StoryboardShot)
      = ((List.range 0).map shotsOf).flatten := by simp
  have hstep : generateStoryboardInChunks outcome numChunks
      = ((runChunksGo outcome numChunks (numChunks - j) j
          (((List.range j).map shotsOf).flatten)).1).map renumberShots := by
    rw [generateStoryboardInChunks, h0,
      runChunksGo_fst_prefix outcome numChunks shotsOf j hok j 0 numChunks
        (by omega) (by omega)]
  obtain ⟨rem, hrem⟩ : ∃ rem, numChunks - j = rem + 1 :=
    ⟨numChunks - j - 1, by omega⟩
  rw [hstep, hrem]
  simp only [runChunksGo, herr]
  rw [hN]
  constructor
  · intro hpos
    rw [if_pos (by omega)]
    rfl
  · intro hzero
    rw [if_neg (by omega)]
    rfl

/-- Witness for C5: chunk 0 yields 2 shots, chunk 1 fails; the raised
error reports the produced count and the failing chunk. -/
theorem pipeline_partial_failure_C5_witness :
    (0 < 2 → generateStoryboardInChunks outcomeFailW 2
        = .error "分段生成在第 2/2 批时失败，但已成功生成2个分镜。错误：网络超时") ∧
    (2 = 0 → generateStoryboardInChunks outcomeFailW 2
        = .error "分段生成在第 2/2 批时失败: 网络超时。建议：1) 缩短剧本长度 2) 减少分镜数量 3) 检查网络连接") :=
  pipeline_partial_failure_C5 outcomeFailW 2 1 2 shotsOfW "网络超时"
    (by decide)
    (by intro k acc hk
        have hk0 : k = 0 := by omega
        subst hk0
        rfl)
    (by intro acc; rfl)
    (by decide)

/-- Counterexample to C5 as stated: chunk 0 succeeds (with an empty shot
list) before chunk 1 fails, yet the pipeline raises the mitigation-style
error, whose message does not report the number of shots already produced
(the report phrase `已成功生成` is absent) — the code branches on the
accumulated shot count, not on whether an earlier chunk succeeded. -/
theorem pipeline_partial_failure_C5_counterexample :
    generateStoryboardInChunks outcomeEmptyW 2
      = .error "分段生成在第 2/2 批时失败: boom。建议：1) 缩短剧本长度 2) 减少分镜数量 3) 检查网络连接" ∧
    containsSeq "已成功生成".data
      "分段生成在第 2/2 批时失败: boom。建议：1) 缩短剧本长度 2) 减少分镜数量 3) 检查网络连接".data = false := by
  constructor
  · rfl
  · decide

/-- Claim C9: before each chunk the chunk generator is handed the
starting sequence number `1 + (shots emitted so far)` together with the
accumulated shot list, and its continuity priming keeps exactly the last
`min(5, total)` emitted shots (a suffix of the emitted list) and is empty
when nothing was emitted. -/
theorem continuity_context_C9
    (outcome : Nat → List StoryboardShot → Except String (List StoryboardShot))
    (numChunks : Nat) (shotsOf : Nat → List StoryboardShot)
    (hok : ∀ k acc, k < numChunks → outcome k acc = .ok (shotsOf k)) :
    chunkCallTrace outcome numChunks
      = (List.range numChunks).map (fun k =>
          ((((List.range k).map shotsOf).flatten).length + 1,
           ((List.range k).map shotsOf).flatten)) ∧
    (∀ prev : List StoryboardShot,
      lastFewShotsOf prev = prev.drop (prev.length - 5) ∧
      (lastFewShotsOf prev).length = min 5 prev.length ∧
      prev.take (prev.length - 5) ++ lastFewShotsOf prev = prev) ∧
    (∀ start, previousContextOf start [] = "") := by
  refine ⟨?_, ?_, fun start => rfl⟩
  · have h0 : ([] : List StoryboardShot)
        = ((List.range 0).map shotsOf).flatten := by simp
    rw [chunkCallTrace, h0,
      runChunksGo_all_ok outcome numChunks shotsOf hok numChunks 0 (by omega)]
    rw [List.range_eq_range']
  · intro prev
    refine ⟨rfl, ?_, ?_⟩
    · simp only [lastFewShotsOf, List.length_drop]
      omega
    · exact List.take_append_drop _ prev

/-- Witness for C9 on the two-chunk all-success run. -/
theorem continuity_context_C9_witness :
    (chunkCallTrace outcomeW 2
      = (List.range 2).map (fun k =>
          ((((List.range k).map shotsOfW).flatten).length + 1,
           ((List.range k).map shotsOfW).flatten)) ∧
    (∀ prev : List StoryboardShot,
      lastFewShotsOf prev = prev.drop (prev.length - 5) ∧
      (lastFewShotsOf prev).length = min 5 prev.length ∧
      prev.take (prev.length - 5) ++ lastFewShotsOf prev = prev) ∧
    (∀ start, previousContextOf start [] = "")) ∧
    chunkCallTrace outcomeW 2
      = [(1, []), (3, [sampleShot 0 "a", sampleShot 0 "b"])] :=
  ⟨continuity_context_C9 outcomeW 2 shotsOfW (by intro k acc hk; rfl),
   by decide⟩

/-- Two lists with distinct heads cannot both be prefixes of a list. -/
lemma not_both_prefixes (c d : Char) (p q l : List Char) (hne : c ≠ d)
    (hp : (c :: p).isPrefixOf l = true) :
    (d :: q).isPrefixOf l = true → False := by
  intro hq
  rw [List.isPrefixOf_iff_prefix] at hp hq
  obtain ⟨t1, rfl⟩ := hp
  obtain ⟨t2, ht⟩ := hq
  rw [List.cons_append, List.cons_append] at ht
  exact hne (List.cons.inj ht).1.symm

/-- Under `noRegisteredCallable`, every dispatch attempt falls through to
the configuration error without invoking any callable. -/
lemma dispatchOnce_config_error (modelName : String) (cs : Callables)
    (h : noRegisteredCallable modelName cs) (attempt : Nat) :
    dispatchOnce modelName cs attempt
      = .error "不支持的模型类型或缺少 API 调用函数" := by
  rcases h with ⟨hds, hnone⟩ | ⟨hc, hg, hds, hnone⟩
  · have hc : "claude".data.isPrefixOf modelName.data = false := by
      rcases hcc : "claude".data.isPrefixOf modelName.data with _ | _
      · rfl
      · exact absurd (not_both_prefixes 'd' 'c' _ _ _ (by decide) hds hcc) not_false
    have hg : "gpt-".data.isPrefixOf modelName.data = false := by
      rcases hgg : "gpt-".data.isPrefixOf modelName.data with _ | _
      · rfl
      · exact absurd (not_both_prefixes 'd' 'g' _ _ _ (by decide) hds hgg) not_false
    simp [dispatchOnce, hc, hg, hds, hnone]
  · simp [dispatchOnce, hc, hg, hds, hnone]

/-- Claim C2 (amended): `splitScriptIntoSections` never raises (it is a
total function: every failure path degrades to the fallback), and its
result either has exactly `numSections` sections — the case for every
fallback path — or the run took the primary path to a successfully
parsed reply and returned that reply's `sections` value as-is, with no
length validation. -/
theorem section_splitter_C2 (scriptText : List Char) (numSections : Nat)
    (modelName : String) (bs : SplitCallables) :
    (splitScriptIntoSections scriptText numSections modelName bs).length
        = numSections ∨
    (∃ t parsed sections,
      splitDispatch modelName bs = some (.ok t) ∧
      jsonParse (cleanJsonOutput t.data) = some parsed ∧
      sectionsAccess parsed = some sections ∧
      splitScriptIntoSections scriptText numSections modelName bs = sections) := by
  have hfb : (fallbackSplit scriptText numSections).length = numSections := by
    simp [fallbackSplit]
  rcases hd : splitDispatch modelName bs with _ | r
  · left
    simp [splitScriptIntoSections, hd, hfb]
  · rcases r with e | t
    · left
      simp [splitScriptIntoSections, hd, hfb]
    · rcases hp : jsonParse (cleanJsonOutput t.data) with _ | parsed
      · left
        simp [splitScriptIntoSections, hd, hp, hfb]
      · rcases hs : sectionsAccess parsed with _ | sections
        · left
          simp [splitScriptIntoSections, hd, hp, hs, hfb]
        · right
          refine ⟨t, parsed, sections, rfl, hp, hs, ?_⟩
          simp [splitScriptIntoSections, hd, hp, hs]


/-- Counterexample to C2 as stated: on the non-empty document `"abcd"`
with `numChunks = 2`, a backend reply that parses to a one-element
`sections` array is returned unvalidated, so the splitter yields 1
section, not 2 — no length validation exists on the primary path. -/
theorem section_splitter_C2_counterexample :
    splitScriptIntoSections "abcd".data 2 "claude-3" bsShortSections
      = ["whole".data] ∧
    (splitScriptIntoSections "abcd".data 2 "claude-3" bsShortSections).length
      ≠ 2 := by
  constructor
  · rfl
  · decide

/-- A successful dispatch ends the retry loop at once. -/
lemma attemptGo_ok (m : String) (cs : Callables) (rc left : Nat) (t : String)
    (h : dispatchOnce m cs rc = .ok t) :
    attemptGo m cs rc left = (.ok t, rc + 1) := by
  cases left <;> simp [attemptGo, h]

/-- A failing dispatch with no retries left raises the wrapped error. -/
lemma attemptGo_error_zero (m : String) (cs : Callables) (rc : Nat) (e : String)
    (h : dispatchOnce m cs rc = .error e) :
    attemptGo m cs rc 0
      = (.error s!"分镜生成失败（已重试{MAX_RETRIES}次）: {e}", rc + 1) := by
  simp [attemptGo, h]

/-- A failing dispatch with retries left re-enters the loop. -/
lemma attemptGo_error_succ (m : String) (cs : Callables) (rc left : Nat)
    (e : String) (h : dispatchOnce m cs rc = .error e) :
    attemptGo m cs rc (left + 1) = attemptGo m cs (rc + 1) left := by
  simp [attemptGo, h]

/-- Claim C3 (amended): when the resolved backend category has no
registered callable, no backend callable is ever invoked — every dispatch
attempt yields the configuration error, for arbitrary behaviour of the
registered callables — but the error is raised inside the retry loop and
caught like a transport error, so the loop runs all 3 attempts and the
final failure wraps the configuration message in the retry-exhausted
message. -/
theorem config_error_C3 (modelName : String) (cs : Callables)
    (h : noRegisteredCallable modelName cs) :
    (∀ attempt, dispatchOnce modelName cs attempt
        = .error "不支持的模型类型或缺少 API 调用函数") ∧
    generateStoryboardChunk modelName cs
      = (.error "分镜生成失败（已重试2次）: 不支持的模型类型或缺少 API 调用函数", 3) := by
  have hdisp := dispatchOnce_config_error modelName cs h
  refine ⟨hdisp, ?_⟩
  have hloop : attemptLoop modelName cs
      = (.error "分镜生成失败（已重试2次）: 不支持的模型类型或缺少 API 调用函数", 3) := by
    rw [attemptLoop, MAX_RETRIES,
      attemptGo_error_succ modelName cs 0 1 _ (hdisp 0),
      attemptGo_error_succ modelName cs 1 0 _ (hdisp 1),
      attemptGo_error_zero modelName cs 2 _ (hdisp 2)]
    rfl
  simp only [generateStoryboardChunk, hloop]

/-- Witness for C3: a `deepseek` model name with `callDeepSeek` absent. -/
theorem config_error_C3_witness :
    noRegisteredCallable "deepseek-chat" csNoDeepSeek ∧
    ((∀ attempt, dispatchOnce "deepseek-chat" csNoDeepSeek attempt
        = .error "不支持的模型类型或缺少 API 调用函数") ∧
    generateStoryboardChunk "deepseek-chat" csNoDeepSeek
      = (.error "分镜生成失败（已重试2次）: 不支持的模型类型或缺少 API 调用函数", 3)) :=
  ⟨Or.inl ⟨by decide, rfl⟩,
   config_error_C3 "deepseek-chat" csNoDeepSeek (Or.inl ⟨by decide, rfl⟩)⟩

/-- Counterexample to C3 as stated: with a `deepseek` model and no
`callDeepSeek`, the call does not fail immediately — the dispatch runs 3
times (the retry loop retries the configuration error), and the surfaced
error is the retry-exhausted wrapper, not the bare configuration error. -/
theorem config_error_C3_counterexample :
    generateStoryboardChunk "deepseek-chat" csNoDeepSeek
      = (.error "分镜生成失败（已重试2次）: 不支持的模型类型或缺少 API 调用函数", 3) ∧
    (generateStoryboardChunk "deepseek-chat" csNoDeepSeek).2 ≠ 1 ∧
    (generateStoryboardChunk "deepseek-chat" csNoDeepSeek).1
      ≠ .error "不支持的模型类型或缺少 API 调用函数" := by
  refine ⟨rfl, by decide, ?_⟩
  intro hcontra
  have h1 : (generateStoryboardChunk "deepseek-chat" csNoDeepSeek).1
      = .error "分镜生成失败（已重试2次）: 不支持的模型类型或缺少 API 调用函数" := rfl
  rw [h1] at hcontra
  have := Except.error.inj hcontra
  exact absurd this (by decide)

/-- Claim C4: the callable is re-invoked after a raise, up to 2 extra
times: failing on attempts 1 and 2 and succeeding on attempt 3 yields a
successful chunk result (3 invocations); failing all 3 attempts fails the
invocation with the last error wrapped; and a parse error on this chunk's
own output surfaces immediately with no re-invocation of the callable
(the invocation count stays at 1). -/
theorem chunk_retry_C4 :
    (∀ (m : String) (cs : Callables) (e0 e1 t : String) (parsed : JsonVal),
      dispatchOnce m cs 0 = .error e0 →
      dispatchOnce m cs 1 = .error e1 →
      dispatchOnce m cs 2 = .ok t →
      jsonParse (cleanJsonOutput t.data) = some parsed →
      generateStoryboardChunk m cs = (.ok (cleanContent parsed), 3)) ∧
    (∀ (m : String) (cs : Callables) (e0 e1 e2 : String),
      dispatchOnce m cs 0 = .error e0 →
      dispatchOnce m cs 1 = .error e1 →
      dispatchOnce m cs 2 = .error e2 →
      generateStoryboardChunk m cs
        = (.error s!"分镜生成失败（已重试2次）: {e2}", 3)) ∧
    (∀ (m : String) (cs : Callables) (t : String),
      dispatchOnce m cs 0 = .ok t →
      jsonParse (cleanJsonOutput t.data) = none →
      generateStoryboardChunk m cs
        = (.error "分镜生成失败: JSON 解析错误", 1)) := by
  refine ⟨?_, ?_, ?_⟩
  · intro m cs e0 e1 t parsed h0 h1 h2 hp
    have hloop : attemptLoop m cs = (.ok t, 3) := by
      rw [attemptLoop, MAX_RETRIES,
        attemptGo_error_succ m cs 0 1 _ h0,
        attemptGo_error_succ m cs 1 0 _ h1,
        attemptGo_ok m cs 2 0 t h2]
    simp only [generateStoryboardChunk, hloop, hp]
  · intro m cs e0 e1 e2 h0 h1 h2
    have hloop : attemptLoop m cs
        = (.error s!"分镜生成失败（已重试2次）: {e2}", 3) := by
      rw [attemptLoop, MAX_RETRIES,
        attemptGo_error_succ m cs 0 1 _ h0,
        attemptGo_error_succ m cs 1 0 _ h1,
        attemptGo_error_zero m cs 2 _ h2]
      rfl
    simp only [generateStoryboardChunk, hloop]
  · intro m cs t h0 hp
    have hloop : attemptLoop m cs = (.ok t, 1) := by
      rw [attemptLoop, MAX_RETRIES, attemptGo_ok m cs 0 2 t h0]
    simp only [generateStoryboardChunk, hloop, hp]

/-- Witness for C4: three concrete callables — fail/fail/succeed, always
fail, and succeed-with-unparseable-output. -/
theorem chunk_retry_C4_witness :
    generateStoryboardChunk "claude-3" csRetryW
      = (.ok (cleanContent (.obj [("shots", .arr [])])), 3) ∧
    generateStoryboardChunk "claude-3" csAllFailW
      = (.error "分镜生成失败（已重试2次）: 网络错误", 3) ∧
    generateStoryboardChunk "claude-3" csBadJsonW
      = (.error "分镜生成失败: JSON 解析错误", 1) :=
  ⟨chunk_retry_C4.1 "claude-3" csRetryW "网络错误" "网络错误"
      "\x7b\"shots\": []\x7d" (.obj [("shots", .arr [])]) rfl rfl rfl rfl,
   chunk_retry_C4.2.1 "claude-3" csAllFailW "网络错误" "网络错误" "网络错误"
      rfl rfl rfl,
   chunk_retry_C4.2.2 "claude-3" csBadJsonW "not json" rfl rfl⟩

/-! ## Lemmas about the Output Cleaner stages -/

/-- A trim is the identity when both end characters are non-whitespace. -/
lemma jsTrim_eq_self (s : List Char)
    (hh : ∃ ch, s.head? = some ch ∧ ¬ch.isWhitespace)
    (hl : ∃ cl, s.getLast? = some cl ∧ ¬cl.isWhitespace) :
    jsTrim s = s := by
  obtain ⟨ch, hch, hwch⟩ := hh
  obtain ⟨cl, hcl, hwcl⟩ := hl
  unfold jsTrim
  have h1 : s.dropWhile Char.isWhitespace = s := by
    cases s with
    | nil => simp at hch
    | cons a s' =>
        have ha : a = ch := by simpa using hch
        subst ha
        simp [List.dropWhile_cons, hwch]
  rw [h1]
  have h2 : s.reverse.dropWhile Char.isWhitespace = s.reverse := by
    cases hr : s.reverse with
    | nil => simp
    | cons b r' =>
        have hb : b = cl := by
          have hrev : s.reverse.head? = some cl := by
            rw [List.head?_reverse]
            exact hcl
          rw [hr] at hrev
          simpa using hrev
        subst hb
        simp [List.dropWhile_cons, hwcl]
  rw [h2, List.reverse_reverse]

/-- The skip counter of the think-block machine drops exactly the next
`u.length` characters. -/
lemma removeThinkGo_skip (u : List Char) (inside : Bool) (v : List Char) :
    removeThinkGo u.length inside (u ++ v) = removeThinkGo 0 inside v := by
  induction u with
  | nil => rfl
  | cons a u' ih =>
      simpa [removeThinkGo] using ih

/-- Outside a think block the machine copies `<`-free text verbatim. -/
lemma removeThinkGo_false_append (u v : List Char) (h : '<' ∉ u) :
    removeThinkGo 0 false (u ++ v) = u ++ removeThinkGo 0 false v := by
  induction u with
  | nil => simp
  | cons a u' ih =>
      have ha : ('<' == a) = false := by
        simp only [List.mem_cons, not_or] at h
        simp [beq_eq_false_iff_ne]
        exact fun hcontra => h.1 hcontra
      have hih := ih (by simp only [List.mem_cons, not_or] at h; exact h.2)
      simp only [List.cons_append]
      rw [show removeThinkGo 0 false (a :: (u' ++ v))
          = a :: removeThinkGo 0 false (u' ++ v) from by
        simp [removeThinkGo, List.isPrefixOf, ha]]
      rw [hih]

/-- Outside a think block the machine leaves `<`-free inputs unchanged. -/
lemma removeThinkGo_false_all (u : List Char) (h : '<' ∉ u) :
    removeThinkGo 0 false u = u := by
  have := removeThinkGo_false_append u [] h
  simpa [removeThinkGo] using this

/-- Inside a think block the machine drops `<`-free text. -/
lemma removeThinkGo_true_append (u v : List Char) (h : '<' ∉ u) :
    removeThinkGo 0 true (u ++ v) = removeThinkGo 0 true v := by
  induction u with
  | nil => simp
  | cons a u' ih =>
      have ha : ('<' == a) = false := by
        simp only [List.mem_cons, not_or] at h
        simp [beq_eq_false_iff_ne]
        exact fun hcontra => h.1 hcontra
      have hih := ih (by simp only [List.mem_cons, not_or] at h; exact h.2)
      simp only [List.cons_append]
      rw [show removeThinkGo 0 true (a :: (u' ++ v))
          = removeThinkGo 0 true (u' ++ v) from by
        simp [removeThinkGo, List.isPrefixOf, ha]]
      rw [hih]

/-- A pattern occurring literally is found by `containsSeq`. -/
lemma containsSeq_append_self (pat x y : List Char) :
    containsSeq pat (x ++ (pat ++ y)) = true := by
  induction x with
  | nil =>
      have hself : pat.isPrefixOf (pat ++ y) = true :=
        List.isPrefixOf_iff_prefix.mpr ⟨y, rfl⟩
      simp only [List.nil_append]
      cases hl : pat ++ y with
      | nil =>
          have : pat = [] := by
            rcases List.append_eq_nil.mp hl with ⟨h1, _⟩
            exact h1
          simp [containsSeq, this]
      | cons a l' =>
          show (pat.isPrefixOf (a :: l') || containsSeq pat l') = true
          rw [← hl, hself]
          simp
  | cons a x' ih =>
      simp [containsSeq, ih]

/-- The machine removes one think block with `<`-free content and then
continues on the remainder. -/
lemma removeThinkGo_false_block (c R : List Char) (hc : '<' ∉ c) :
    removeThinkGo 0 false ("<think>".data ++ (c ++ ("</think>".data ++ R)))
      = removeThinkGo 0 false R := by
  have hstep1 : removeThinkGo 0 false
      ("<think>".data ++ (c ++ ("</think>".data ++ R)))
      = removeThinkGo 6 true ("think>".data ++ (c ++ ("</think>".data ++ R))) := by
    have hcond : ("<think>".data.isPrefixOf
        ('<' :: ("think>".data ++ (c ++ ("</think>".data ++ R))))
        && containsSeq "</think>".data
          (('<' :: ("think>".data ++ (c ++ ("</think>".data ++ R)))).drop 7)) = true := by
      have h1 : "<think>".data.isPrefixOf
          ('<' :: ("think>".data ++ (c ++ ("</think>".data ++ R)))) = true := by
        apply List.isPrefixOf_iff_prefix.mpr
        exact ⟨c ++ ("</think>".data ++ R), rfl⟩
      have h2 : (('<' :: ("think>".data ++ (c ++ ("</think>".data ++ R)))).drop 7)
          = c ++ ("</think>".data ++ R) := rfl
      rw [h1, h2, containsSeq_append_self]
      rfl
    show removeThinkGo 0 false
        ('<' :: ("think>".data ++ (c ++ ("</think>".data ++ R)))) = _
    rw [show removeThinkGo 0 false
        ('<' :: ("think>".data ++ (c ++ ("</think>".data ++ R))))
        = removeThinkGo 6 true ("think>".data ++ (c ++ ("</think>".data ++ R)))
      from by simp only [removeThinkGo, hcond]; rfl]
  rw [hstep1]
  rw [show (6 : Nat) = "think>".data.length from rfl,
    removeThinkGo_skip "think>".data true (c ++ ("</think>".data ++ R)),
    removeThinkGo_true_append c _ hc]
  have hclose : removeThinkGo 0 true ("</think>".data ++ R)
      = removeThinkGo 7 false ("/think>".data ++ R) := by
    have hpre : "</think>".data.isPrefixOf
        ('<' :: ("/think>".data ++ R)) = true := by
      apply List.isPrefixOf_iff_prefix.mpr
      exact ⟨R, rfl⟩
    show removeThinkGo 0 true ('<' :: ("/think>".data ++ R)) = _
    simp only [removeThinkGo, hpre]
    rfl
  rw [hclose,
    show (7 : Nat) = "/think>".data.length from rfl,
    removeThinkGo_skip "/think>".data false R]

/-- Removing think blocks on `prose ++ block ++ rest` with `<`-free
prose, content and rest keeps exactly the prose and the rest. -/
lemma removeThinkBlocks_block (p c R : List Char)
    (hp : '<' ∉ p) (hc : '<' ∉ c) (hR : '<' ∉ R) :
    removeThinkBlocks (p ++ ("<think>".data ++ (c ++ ("</think>".data ++ R))))
      = p ++ R := by
  unfold removeThinkBlocks
  rw [removeThinkGo_false_append p _ hp, removeThinkGo_false_block c R hc,
    removeThinkGo_false_all R hR]

/-- `bomStrip` is the identity when the head is no byte-order mark. -/
lemma bomStrip_of_head (pc : Char) (xs : List Char)
    (h1 : pc ≠ '\uFEFF') (h2 : pc ≠ '\u00EF') :
    bomStrip (pc :: xs) = pc :: xs := by
  unfold bomStrip
  have hm1 : (match pc :: xs with
      | '\uFEFF' :: rest => rest
      | _ => pc :: xs) = pc :: xs := by
    split
    · next rest heq =>
        exact absurd (List.cons.inj heq).1 h1
    · rfl
  rw [hm1]
  show (match pc :: xs with
      | '\u00EF' :: '\u00BB' :: '\u00BF' :: rest => rest
      | _ => pc :: xs) = pc :: xs
  split
  · next rest heq =>
      exact absurd (List.cons.inj heq).1 h2
  · rfl

/-- `firstIdxOf` skips a block not containing the character. -/
lemma firstIdxOf_append (ch : Char) (A s : List Char) (h : ch ∉ A) :
    firstIdxOf ch (A ++ s) = (firstIdxOf ch s).map (A.length + ·) := by
  induction A with
  | nil =>
      simp only [List.nil_append, List.length_nil, Nat.zero_add]
      cases firstIdxOf ch s <;> simp
  | cons a A' ih =>
      have ha : a ≠ ch := by
        simp only [List.mem_cons, not_or] at h
        exact fun hcontra => h.1 (hcontra ▸ rfl)
      have hih := ih (by simp only [List.mem_cons, not_or] at h; exact h.2)
      show (if a = ch then some 0
          else (firstIdxOf ch (A' ++ s)).map (· + 1))
        = (firstIdxOf ch s).map ((a :: A').length + ·)
      rw [if_neg ha, hih]
      cases firstIdxOf ch s with
      | none => rfl
      | some v =>
          show some (A'.length + v + 1) = some ((a :: A').length + v)
          simp only [Option.some.injEq, List.length_cons]
          omega

/-- `lastIdxOf` is `none` when the character does not occur. -/
lemma lastIdxOf_eq_none (ch : Char) (B : List Char) (h : ch ∉ B) :
    lastIdxOf ch B = none := by
  induction B with
  | nil => rfl
  | cons a B' ih =>
      have ha : a ≠ ch := by
        simp only [List.mem_cons, not_or] at h
        exact fun hcontra => h.1 (hcontra ▸ rfl)
      have hih := ih (by simp only [List.mem_cons, not_or] at h; exact h.2)
      simp [lastIdxOf, hih, if_neg ha]

/-- `lastIdxOf` ignores a trailing block not containing the character. -/
lemma lastIdxOf_append_right (ch : Char) (s B : List Char) (h : ch ∉ B) :
    lastIdxOf ch (s ++ B) = lastIdxOf ch s := by
  induction s with
  | nil =>
      simp [lastIdxOf_eq_none ch B h, lastIdxOf]
  | cons a s' ih =>
      show (match lastIdxOf ch (s' ++ B) with
        | some j => some (j + 1)
        | none => if a = ch then some 0 else none)
        = (match lastIdxOf ch s' with
        | some j => some (j + 1)
        | none => if a = ch then some 0 else none)
      rw [ih]

/-- `lastIdxOf` shifts across a leading block when the character occurs
in the tail. -/
lemma lastIdxOf_append_left (ch : Char) (A s : List Char) (j : Nat)
    (hs : lastIdxOf ch s = some j) :
    lastIdxOf ch (A ++ s) = some (A.length + j) := by
  induction A with
  | nil => simpa using hs
  | cons a A' ih =>
      show (match lastIdxOf ch (A' ++ s) with
        | some j => some (j + 1)
        | none => if a = ch then some 0 else none)
        = some ((a :: A').length + j)
      rw [ih]
      show some (A'.length + j + 1) = some ((a :: A').length + j)
      simp only [Option.some.injEq, List.length_cons]
      omega

/-- The last occurrence in `x ++ [ch]` is at index `x.length`. -/
lemma lastIdxOf_concat_self (ch : Char) (x : List Char) :
    lastIdxOf ch (x ++ [ch]) = some x.length := by
  induction x with
  | nil => simp [lastIdxOf]
  | cons a x' ih =>
      show (match lastIdxOf ch (x' ++ [ch]) with
        | some j => some (j + 1)
        | none => if a = ch then some 0 else none)
        = some (x'.length + 1)
      rw [ih]

/-- The brace slice extracts a brace-delimited core out of brace-free
surroundings. -/
lemma braceSlice_extract (A t B : List Char)
    (hA1 : '{' ∉ A) (hB2 : '}' ∉ B)
    (ht1 : t.head? = some '{') (ht2 : t.getLast? = some '}') :
    braceSlice (A ++ (t ++ B)) = t := by
  obtain ⟨a, t1, rfl⟩ : ∃ a t1, t = a :: t1 := by
    cases t with
    | nil => simp at ht1
    | cons a t1 => exact ⟨a, t1, rfl⟩
  have ha : a = '{' := by simpa using ht1
  subst ha
  have htne : '{' :: t1 ≠ [] := by simp
  have hlast : ('{' :: t1).getLast htne = '}' := by
    have h := List.getLast?_eq_getLast ('{' :: t1) htne
    rw [h] at ht2
    exact Option.some.inj ht2
  have hdecomp : ('{' :: t1).dropLast ++ ['}'] = '{' :: t1 := by
    conv_rhs => rw [← List.dropLast_append_getLast htne]
    rw [hlast]
  have hlen2 : 2 ≤ ('{' :: t1).length := by
    cases t1 with
    | nil =>
        have : ('{' : Char) = '}' := by simpa using ht2
        exact absurd this (by decide)
    | cons b t2 => simp
  have hfirst : firstIdxOf '{' (A ++ (('{' :: t1) ++ B)) = some A.length := by
    rw [firstIdxOf_append '{' A _ hA1]
    show (firstIdxOf '{' ('{' :: (t1 ++ B))).map (A.length + ·) = some A.length
    simp [firstIdxOf]
  have hin : lastIdxOf '}' ('{' :: t1) = some (('{' :: t1).length - 1) := by
    conv_lhs => rw [← hdecomp]
    rw [lastIdxOf_concat_self, List.length_dropLast]
  have hlastidx : lastIdxOf '}' (A ++ (('{' :: t1) ++ B))
      = some (A.length + (('{' :: t1).length - 1)) := by
    rw [← List.append_assoc, lastIdxOf_append_right '}' (A ++ ('{' :: t1)) B hB2,
      lastIdxOf_append_left '}' A _ _ hin]
  unfold braceSlice
  rw [hfirst, hlastidx]
  show (if A.length < A.length + (('{' :: t1).length - 1) then
      ((A ++ (('{' :: t1) ++ B)).take
        (A.length + (('{' :: t1).length - 1) + 1)).drop A.length
    else A ++ (('{' :: t1) ++ B)) = '{' :: t1
  rw [if_pos (by simp only [List.length_cons] at hlen2 ⊢; omega)]
  have hj1 : A.length + (('{' :: t1).length - 1) + 1
      = (A ++ ('{' :: t1)).length := by
    simp only [List.length_append, List.length_cons]
    omega
  rw [← List.append_assoc, hj1, List.take_left, List.drop_left]

/-- A nonempty left operand keeps an append nonempty. -/
lemma append_ne_nil_left (X Y : List Char) (h : X ≠ []) : X ++ Y ≠ [] :=
  fun hc => h (List.append_eq_nil.mp hc).1

/-- A nonempty right operand keeps an append nonempty. -/
lemma append_ne_nil_right (X Y : List Char) (h : Y ≠ []) : X ++ Y ≠ [] :=
  fun hc => h (List.append_eq_nil.mp hc).2

/-- Claim C8: the output cleaner applies, in source order: trim; strip a
fenced-code-block wrapper if present; delete every reasoning-tag block
with its contents (then re-trim); strip a leading byte-order mark; slice
from the first `{` to the last `}` (first conjunct).  Consequently
(second conjunct), for every JSON object text `t` (starting with `{`,
ending with `}`) wrapped in a fenced block, preceded by a reasoning-tag
block with arbitrary `<`-free contents `c`, and surrounded by extraneous
prose `p`/`q` (brace-free on the relevant side, `<`-free, not starting
with a backtick or byte-order mark and not ending in whitespace),
cleaning yields exactly `t`. -/
theorem output_cleaner_C8 :
    (∀ s, cleanJsonOutput s
        = braceSlice (bomStrip (jsTrim (removeThinkBlocks
            (fenceStrip (jsTrim s)))))) ∧
    (∀ (p c t q : List Char) (pc : Char),
      p.head? = some pc → ¬pc.isWhitespace → pc ≠ '`' →
      pc ≠ '\uFEFF' → pc ≠ '\u00EF' →
      '{' ∉ p → '<' ∉ p →
      '<' ∉ c →
      '<' ∉ t → t.head? = some '{' → t.getLast? = some '}' →
      '}' ∉ q → '<' ∉ q →
      (q = [] ∨ ∃ qc q', q = q' ++ [qc] ∧ ¬qc.isWhitespace) →
      cleanJsonOutput (p ++ ("<think>".data ++ (c ++ ("</think>".data
          ++ ("```json\n".data ++ (t ++ ("\n```".data ++ q))))))) = t) := by
  constructor
  · intro s
    rfl
  · intro p c t q pc hph hpw hpb hpf hpe hpbrace hplt hclt htlt hthead htlast
      hqbrace hqlt hqend
    obtain ⟨p', rfl⟩ : ∃ p', p = pc :: p' := by
      cases p with
      | nil => simp at hph
      | cons a p' =>
          have ha : a = pc := by simpa using hph
          subst ha
          exact ⟨p', rfl⟩
    have hqtail : ∃ cl, ("\n```".data ++ q).getLast? = some cl
        ∧ ¬cl.isWhitespace := by
      rcases hqend with rfl | ⟨qc, q', rfl, hqw⟩
      · exact ⟨'`', by rw [List.append_nil]; rfl, by decide⟩
      · refine ⟨qc, ?_, hqw⟩
        rw [← List.append_assoc, List.getLast?_concat]
    obtain ⟨cl, hcl, hclw⟩ := hqtail
    have hne_q : ("\n```".data ++ q) ≠ [] :=
      append_ne_nil_left _ _ (by decide)
    have hne_t : (t ++ ("\n```".data ++ q)) ≠ [] :=
      append_ne_nil_right _ _ hne_q
    have hne_fo : ("```json\n".data ++ (t ++ ("\n```".data ++ q))) ≠ [] :=
      append_ne_nil_left _ _ (by decide)
    have hne_tc : ("</think>".data
        ++ ("```json\n".data ++ (t ++ ("\n```".data ++ q)))) ≠ [] :=
      append_ne_nil_left _ _ (by decide)
    have hne_c : (c ++ ("</think>".data
        ++ ("```json\n".data ++ (t ++ ("\n```".data ++ q))))) ≠ [] :=
      append_ne_nil_right _ _ hne_tc
    have hne_to : ("<think>".data ++ (c ++ ("</think>".data
        ++ ("```json\n".data ++ (t ++ ("\n```".data ++ q)))))) ≠ [] :=
      append_ne_nil_left _ _ (by decide)
    have hlast1 : ∃ d, ((pc :: p') ++ ("<think>".data ++ (c ++ ("</think>".data
        ++ ("```json\n".data ++ (t ++ ("\n```".data ++ q))))))).getLast?
        = some d ∧ ¬d.isWhitespace := by
      refine ⟨cl, ?_, hclw⟩
      rw [List.getLast?_append_of_ne_nil _ hne_to,
        List.getLast?_append_of_ne_nil _ hne_c,
        List.getLast?_append_of_ne_nil _ hne_tc,
        List.getLast?_append_of_ne_nil _ hne_fo,
        List.getLast?_append_of_ne_nil _ hne_t,
        List.getLast?_append_of_ne_nil _ hne_q]
      exact hcl
    have hlast2 : ∃ d, ((pc :: p') ++ ("```json\n".data
        ++ (t ++ ("\n```".data ++ q)))).getLast?
        = some d ∧ ¬d.isWhitespace := by
      refine ⟨cl, ?_, hclw⟩
      rw [List.getLast?_append_of_ne_nil _ hne_fo,
        List.getLast?_append_of_ne_nil _ hne_t,
        List.getLast?_append_of_ne_nil _ hne_q]
      exact hcl
    have h1 : jsTrim ((pc :: p') ++ ("<think>".data ++ (c ++ ("</think>".data
        ++ ("```json\n".data ++ (t ++ ("\n```".data ++ q)))))))
        = (pc :: p') ++ ("<think>".data ++ (c ++ ("</think>".data
        ++ ("```json\n".data ++ (t ++ ("\n```".data ++ q)))))) :=
      jsTrim_eq_self _ ⟨pc, rfl, hpw⟩ hlast1
    have h2 : ("```".data.isPrefixOf ((pc :: p') ++ ("<think>".data
        ++ (c ++ ("</think>".data ++ ("```json\n".data
        ++ (t ++ ("\n```".data ++ q)))))))) = false := by
      show (('`' == pc) && ("``".data.isPrefixOf (p' ++ ("<think>".data
          ++ (c ++ ("</think>".data ++ ("```json\n".data
          ++ (t ++ ("\n```".data ++ q))))))))) = false
      rw [beq_eq_false_iff_ne.mpr (Ne.symm hpb)]
      rfl
    have hfs : fenceStrip ((pc :: p') ++ ("<think>".data ++ (c
        ++ ("</think>".data ++ ("```json\n".data
        ++ (t ++ ("\n```".data ++ q)))))))
        = (pc :: p') ++ ("<think>".data ++ (c ++ ("</think>".data
        ++ ("```json\n".data ++ (t ++ ("\n```".data ++ q)))))) := by
      unfold fenceStrip
      rw [h2]
      rfl
    have hR : '<' ∉ ("```json\n".data ++ (t ++ ("\n```".data ++ q))) := by
      simp only [List.mem_append, not_or]
      exact ⟨by decide, htlt, by decide, hqlt⟩
    have h3 := removeThinkBlocks_block (pc :: p') c
      ("```json\n".data ++ (t ++ ("\n```".data ++ q))) hplt hclt hR
    have h4 : jsTrim ((pc :: p') ++ ("```json\n".data
        ++ (t ++ ("\n```".data ++ q))))
        = (pc :: p') ++ ("```json\n".data ++ (t ++ ("\n```".data ++ q))) :=
      jsTrim_eq_self _ ⟨pc, rfl, hpw⟩ hlast2
    have h5 : bomStrip ((pc :: p') ++ ("```json\n".data
        ++ (t ++ ("\n```".data ++ q))))
        = (pc :: p') ++ ("```json\n".data ++ (t ++ ("\n```".data ++ q))) :=
      bomStrip_of_head pc _ hpf hpe
    have hA1 : '{' ∉ (pc :: p') ++ "```json\n".data := by
      simp only [List.mem_append, not_or]
      exact ⟨hpbrace, by decide⟩
    have hB2 : '}' ∉ "\n```".data ++ q := by
      simp only [List.mem_append, not_or]
      exact ⟨by decide, hqbrace⟩
    have h6 : braceSlice ((pc :: p') ++ ("```json\n".data
        ++ (t ++ ("\n```".data ++ q)))) = t := by
      rw [show (pc :: p') ++ ("```json\n".data ++ (t ++ ("\n```".data ++ q)))
          = ((pc :: p') ++ "```json\n".data) ++ (t ++ ("\n```".data ++ q))
        from (List.append_assoc _ _ _).symm]
      exact braceSlice_extract _ _ _ hA1 hB2 hthead htlast
    have hcomp : cleanJsonOutput ((pc :: p') ++ ("<think>".data ++ (c
        ++ ("</think>".data ++ ("```json\n".data
        ++ (t ++ ("\n```".data ++ q)))))))
        = braceSlice (bomStrip (jsTrim (removeThinkBlocks
            (fenceStrip (jsTrim ((pc :: p') ++ ("<think>".data ++ (c
              ++ ("</think>".data ++ ("```json\n".data
              ++ (t ++ ("\n```".data ++ q)))))))))))) := rfl
    rw [hcomp, h1, hfs, h3, h4, h5, h6]

/-- Witness for C8: a fenced JSON object preceded by a reasoning block
and surrounded by prose cleans to exactly the JSON text. -/
theorem output_cleaner_C8_witness :
    cleanJsonOutput ("AI回答：".data ++ ("<think>".data ++ ("推理过程".data
        ++ ("</think>".data ++ ("```json\n".data
        ++ ("\x7b\"shots\": []\x7d".data
        ++ ("\n```".data ++ " 以上。".data)))))))
      = "\x7b\"shots\": []\x7d".data :=
  output_cleaner_C8.2 "AI回答：".data "推理过程".data
    "\x7b\"shots\": []\x7d".data " 以上。".data 'A'
    (by decide) (by decide) (by decide) (by decide) (by decide)
    (by decide) (by decide) (by decide) (by decide) (by decide) (by decide)
    (by decide) (by decide)
    (Or.inr ⟨'。', " 以上".data, by decide, by decide⟩)

end Storyboard
